import Mathlib

/-!
Shallow embedding of the repository-synchronization layer
(`lib/repository.py`) and the chroot initialization wrapper
(`lib/mock.py`) of the `builds` project, together with theorems about
the embedded operations.

External collaborators (the git engine, the filesystem, the network,
the svn and tar/gzip executables) are modelled as explicit environment
records: a resolution map from reference names to commits, booleans
telling whether a fetch/clone/reset/command succeeds, and the list of
push results returned by the transport.  Everything the Python code of
the repository itself does (candidate ordering, branching, exception
conversion, state mutation) is translated statement by statement.
-/

/-- Commits are opaque identifiers (`lib/repository.py` treats them as
such: they only flow from resolution into `head.reference`/`reset`). -/
abbrev Commit := String

/-- The exceptions that can cross the boundaries modelled here.
`invalidGitRepositoryError`, `gitCommandError`, `valueError`,
`indexError` and `badName` come from the underlying tooling
(GitPython / Python); `repositoryError` is `lib.exception.RepositoryError`;
`pushError` is `repository.PushError`; `commandExecutionError` is the
generic error of `utils.run_command`. -/
inductive PyExc where
  | invalidGitRepositoryError (path : String)
  | noSuchPathError (path : String)
  | gitCommandError (op : String)
  | valueError (message : String)
  | indexError
  | repositoryError (message : String)
  | pushError (message : String)
  | commandExecutionError (cmd : String)
  deriving DecidableEq, Repr

/-- Is the exception `lib.exception.RepositoryError`? -/
def PyExc.isRepositoryError : PyExc → Bool
  | .repositoryError _ => true
  | _ => false

/-- Is the exception `repository.PushError`? -/
def PyExc.isPushError : PyExc → Bool
  | .pushError _ => true
  | _ => false

/-- Modelled from the spec: the error taxonomy of §7 —
`RepositoryFormatError` (realized in the code as the re-raised
`git.exc.InvalidGitRepositoryError`), `RepositoryError` and
`PushError`.  Used to compare the spec's propagation sentence with the
code's behaviour. -/
def PyExc.isTaxonomyError : PyExc → Bool
  | .invalidGitRepositoryError _ => true
  | .repositoryError _ => true
  | .pushError _ => true
  | _ => false

/-- A git remote: `{name, url}` as listed by `repo.remotes`. -/
structure Remote where
  name : String
  url : String
  deriving DecidableEq, Repr

/-- A git submodule: name, url, path and the commit recorded by the
superproject versus the commit currently checked out. -/
structure GitSubmodule where
  name : String
  url : String
  path : String
  recordedCommit : Commit
  currentCommit : Commit
  deriving DecidableEq, Repr

/-- `MAIN_REMOTE_NAME = "origin"` (`lib/repository.py`). -/
def MAIN_REMOTE_NAME : String := "origin"

/-- Does the string start with a slash? -/
def firstCharIsSlash (b : String) : Bool :=
  match b.toList with
  | [] => false
  | c :: _ => c = '/'

/-- Does the string end with a slash? -/
def lastCharIsSlash (a : String) : Bool :=
  match a.toList.getLast? with
  | none => false
  | some c => c = '/'

/-- `os.path.join(a, b)` for two components (posixpath semantics). -/
def osPathJoin (a b : String) : String :=
  if firstCharIsSlash b then b
  else if a = "" ∨ lastCharIsSlash a then a ++ b
  else a ++ "/" ++ b

/-- `os.path.basename(p)`: everything after the last slash. -/
def osPathBasename (p : String) : String :=
  (p.splitOn "/").getLastD p

/-- Root part of `os.path.splitext` applied to a path's last component:
split at the last dot, unless every character before it (within the
component) is itself a dot. -/
def splitextBaseRoot (base : List Char) : List Char :=
  let dotPositions := (List.range base.length).filter
    (fun i => base.getD i ' ' = '.')
  match dotPositions.getLast? with
  | none => base
  | some i =>
    if (List.range i).any (fun j => base.getD j ' ' ≠ '.') then base.take i
    else base

/-- `os.path.splitext(p)[0]`. -/
def osPathSplitextRoot (p : String) : String :=
  let parts := p.splitOn "/"
  let root := String.mk (splitextBaseRoot (parts.getLastD "").toList)
  String.intercalate "/" (parts.dropLast ++ [root])

/-- `urlparse(url).path` for the URL shapes the factory receives:
drop `scheme://netloc` when present, then drop query and fragment. -/
def urlparsePath (url : String) : String :=
  let stripped :=
    match url.splitOn "://" with
    | [] => url
    | [only] => only
    | _scheme :: rest =>
      match (String.intercalate "://" rest).splitOn "/" with
      | [] => ""
      | [_netloc] => ""
      | _netloc :: pathComponents =>
        "/" ++ String.intercalate "/" pathComponents
  ((stripped.splitOn "#").headD "").splitOn "?" |>.headD ""

/-- `os.path.basename(os.path.splitext(urlparse(url).path)[0])`:
the repository name inferred from the URL in `get_git_repository`. -/
def inferRepoName (remoteRepoUrl : String) : String :=
  osPathBasename (osPathSplitextRoot (urlparsePath remoteRepoUrl))

/-- `if not name:` — Python treats both `None` and the empty string as
"no name given", falling back to the inferred name. -/
def repoDirName (remoteRepoUrl : String) (name : Option String) : String :=
  match name with
  | some n => if n = "" then inferRepoName remoteRepoUrl else n
  | none => inferRepoName remoteRepoUrl

/-- The message of the `RepositoryError` raised by `_get_reference`
when no candidate resolves. -/
def refNotFoundMsg (refName : String) : String :=
  "Reference '" ++ refName ++ "' not found in repository"

/-- The candidate list built by `GitRepository._get_reference`: one
remote-qualified name per remote, in enumeration order, then the bare
name. -/
def refsNames (remotes : List Remote) (refName : String) : List String :=
  remotes.map (fun remote => osPathJoin remote.name refName) ++ [refName]

/-- The `for ref_name in refs_names` loop of `_get_reference`:
`resolve` models `self.commit(name)` (`some` = a commit, `none` =
`gitdb.exc.BadName`, which the loop swallows).  `lastTried` tracks the
Python loop variable, which the error message of the `for`/`else`
branch reads after the loop ends. -/
def tryRefNames (resolve : String → Option Commit) :
    String → List String → Except PyExc Commit
  | lastTried, [] => .error (.repositoryError (refNotFoundMsg lastTried))
  | _, c :: cs =>
    match resolve c with
    | some commit => .ok commit
    | none => tryRefNames resolve c cs

/-- `GitRepository._get_reference(ref_name)`. -/
def GitRepository.get_reference (resolve : String → Option Commit)
    (remotes : List Remote) (refName : String) : Except PyExc Commit :=
  tryRefNames resolve refName (refsNames remotes refName)

/-- The state of one local git working copy: where it lives, what the
symbolic `HEAD` reference points to, the index, the working tree (each
summarized by the commit whose content they hold), the remotes and the
submodules. -/
structure GitState where
  repoPath : String
  headRef : Commit
  index : Commit
  workingTree : Commit
  remotes : List Remote
  submodules : List GitSubmodule
  deriving DecidableEq, Repr

/-- `GitRepository.name`: `os.path.basename(self.working_tree_dir)`. -/
def GitState.name (s : GitState) : String :=
  osPathBasename s.repoPath

/-- The behaviour of the external git engine during a `checkout` call:
whether `main_remote.fetch(refspecs)` raises `git.exc.GitCommandError`,
what `self.commit(name)` resolves after the fetch, and whether
`self.head.reset(index=True, working_tree=True)` raises
`git.exc.GitCommandError`. -/
structure GitEnv where
  fetch : Option (List String) → Bool
  resolve : String → Option Commit
  resetOk : Bool

/-- `submodule.update(init=True)`: the submodule ends checked out at
the commit the superproject records for it. -/
def GitSubmodule.update (sub : GitSubmodule) : GitSubmodule :=
  { sub with currentCommit := sub.recordedCommit }

/-- `GitRepository._update_submodules()`. -/
def GitRepository.update_submodules (s : GitState) : GitState :=
  { s with submodules := s.submodules.map GitSubmodule.update }

/-- The message of the `RepositoryError` raised when the hard reset
fails inside `checkout`. -/
def couldNotFindRefMsg (refName repoName : String) : String :=
  "Could not find reference " ++ refName ++ " at " ++ repoName
    ++ " repository"

/-- `GitRepository.checkout(ref_name, refspecs)`.  The result carries
the final state; an error also carries the state at the moment the
exception escapes (the Python object keeps mutating in place).
Statement order follows the source: look up the main remote
(`self.remote` raises `ValueError` when it is absent), fetch it
(a `GitCommandError` here is re-raised unchanged), resolve the
reference, re-point `self.head.reference`, hard-reset (converting a
`GitCommandError` into `RepositoryError`), then update submodules. -/
def GitRepository.checkout (env : GitEnv) (s : GitState)
    (refName : String) (refspecs : Option (List String)) :
    Except (PyExc × GitState) GitState :=
  if s.remotes.any (fun r => r.name == MAIN_REMOTE_NAME) then
    if env.fetch refspecs then
      match GitRepository.get_reference env.resolve s.remotes refName with
      | .error e => .error (e, s)
      | .ok commitId =>
        let s1 : GitState := { s with headRef := commitId }
        if env.resetOk then
          .ok (GitRepository.update_submodules
            { s1 with index := commitId, workingTree := commitId })
        else
          .error (.repositoryError (couldNotFindRefMsg refName s.name), s1)
    else
      .error (.gitCommandError ("git fetch " ++ MAIN_REMOTE_NAME), s)
  else
    .error (.valueError ("Remote named '" ++ MAIN_REMOTE_NAME
      ++ "' did not exist"), s)

/-- `GitRepository.delete_remote(name)`: the remote's configuration
section is removed. -/
def deleteRemote (remotes : List Remote) (name : String) : List Remote :=
  remotes.filter (fun r => !(r.name == name))

/-- `GitRepository.force_create_remote(name, url)`, statement by
statement: if a remote with the name exists and its URL differs,
delete it; then, if no remote with the name exists, create it
(`create_remote` appends to the remote list). -/
def GitRepository.force_create_remote (remotes : List Remote)
    (name url : String) : List Remote :=
  let remotes1 :=
    if remotes.any (fun r => r.name == name) then
      match remotes.find? (fun r => r.name == name) with
      | some previous =>
        if previous.url ≠ url then deleteRemote remotes name else remotes
      | none => remotes
    else remotes
  if remotes1.any (fun r => r.name == name) then remotes1
  else remotes1 ++ [{ name := name, url := url }]

/-- What can stand on the filesystem at a repository path. -/
inductive DirState where
  | missing
  | invalidGit
  | validGit (s : GitState)

/-- The filesystem, as the factory observes and updates it. -/
def FileSys := String → DirState

/-- The behaviour of the external engines during a factory call:
whether `git clone` succeeds, and the head commit and submodules of a
fresh clone. -/
structure FactoryEnv where
  httpProxy : Option String
  cloneOk : Bool
  cloneHead : Commit
  cloneSubmodules : List GitSubmodule

/-- `GitRepository.clone_from(remote_repo_url, repo_path, proxy)`.
Both the proxied and the plain branch run a clone; a
`git.exc.GitCommandError` from either becomes
`RepositoryError("Failed to clone repository")`.  A fresh git clone
has exactly one remote, `origin`, pointing at the cloned URL. -/
def GitRepository.clone_from (env : FactoryEnv)
    (remoteRepoUrl repoPath : String) : Except PyExc GitState :=
  if env.cloneOk then
    .ok
      { repoPath := repoPath
        headRef := env.cloneHead
        index := env.cloneHead
        workingTree := env.cloneHead
        remotes := [{ name := MAIN_REMOTE_NAME, url := remoteRepoUrl }]
        submodules := env.cloneSubmodules }
  else .error (.repositoryError "Failed to clone repository")

/-- `get_git_repository(remote_repo_url, parent_dir_path, name)`.
Returns what the call returns (or raises) together with the
filesystem afterwards.  `GitRepository(repo_path)` raises
`git.exc.InvalidGitRepositoryError` on a directory that is not a valid
git repository (re-raised unchanged after logging) and
`git.exc.NoSuchPathError` on a missing one (handled by cloning); on an
existing valid repository the main remote is upserted to the requested
URL. -/
def get_git_repository (env : FactoryEnv) (fs : FileSys)
    (remoteRepoUrl parentDirPath : String) (name : Option String) :
    Except PyExc GitState × FileSys :=
  let repoPath := osPathJoin parentDirPath (repoDirName remoteRepoUrl name)
  match fs repoPath with
  | .invalidGit => (.error (.invalidGitRepositoryError repoPath), fs)
  | .missing =>
    match GitRepository.clone_from env remoteRepoUrl repoPath with
    | .ok s => (.ok s, fun p => if p == repoPath then .validGit s else fs p)
    | .error e => (.error e, fs)
  | .validGit s =>
    let s1 : GitState := { s with
      remotes := GitRepository.force_create_remote s.remotes
        MAIN_REMOTE_NAME remoteRepoUrl }
    (.ok s1, fun p => if p == repoPath then .validGit s1 else fs p)

/-- One entry of the list returned by `remote.push(refspec)`:
status flags, the name of the remote reference pushed to, and a
summary line. -/
structure PushInfo where
  flags : Nat
  remoteRefName : String
  summary : String
  deriving DecidableEq, Repr

/-- `git.PushInfo.ERROR` (bit 10 of the flag word in GitPython). -/
def PushInfo.ERROR : Nat := 1024

/-- The message of `repository.PushError`:
`"Error pushing to remote reference %s" % push_info.remote_ref.name`. -/
def pushErrorMsg (remoteRefName : String) : String :=
  "Error pushing to remote reference " ++ remoteRefName

/-- `REPO_REMOTE_NAME`, local to `push_head_commits`. -/
def REPO_REMOTE_NAME : String := "push-remote"

/-- `GitRepository.push_head_commits(remote_repo_url,
remote_repo_branch)`.  `push` models the transport: the list of
`PushInfo` it returns for a refspec, given that the call itself did
not throw.  The code upserts the auxiliary remote, pushes
`HEAD:refs/heads/<branch>`, takes entry `[0]` of the result (an empty
result makes Python raise `IndexError`), and raises `PushError` iff
that entry's flags contain the error bit. -/
def GitRepository.push_head_commits (push : String → List PushInfo)
    (remotes : List Remote) (remoteRepoUrl remoteRepoBranch : String) :
    Except PyExc (List Remote) :=
  let remotes1 := GitRepository.force_create_remote remotes
    REPO_REMOTE_NAME remoteRepoUrl
  let refspec := "HEAD:refs/heads/" ++ remoteRepoBranch
  match push refspec with
  | [] => .error .indexError
  | pushInfo :: _ =>
    if Nat.land PushInfo.ERROR pushInfo.flags ≠ 0 then
      .error (.pushError (pushErrorMsg pushInfo.remoteRefName))
    else .ok remotes1

/-- What `Mock.initialize` does to the world, in order: take the
exclusive lock on the lock file, run an external command, release the
lock. -/
inductive MockEvent where
  | lockExclusive
  | command (cmd : String)
  | lockRelease
  deriving DecidableEq, Repr

/-- The `Mock` object: the fields its constructor stores. -/
structure MockChroot where
  binary_file : String
  config_file : String
  extra_args : String
  unique_extension : String
  deriving DecidableEq, Repr

/-- `self.common_mock_args`. -/
def MockChroot.commonMockArgs (m : MockChroot) : List String :=
  [m.binary_file, "-r", m.config_file, m.extra_args,
    "--uniqueext", m.unique_extension]

/-- The command line `Mock.run_command(cmd)` executes:
`" ".join(self.common_mock_args + [cmd])`. -/
def MockChroot.runCommandLine (m : MockChroot) (cmd : String) : String :=
  String.intercalate " " (m.commonMockArgs ++ [cmd])

/-- `Mock.initialize()`, as the trace of events it performs plus the
exception it lets escape, if any.  The source is four statements with
no `try`/`finally`: lock, run `--scrub all`, run `--init`, unlock —
so when a command raises, execution stops right there and the
remaining statements (including the unlock) never run.  `scrubOk` and
`initOk` tell whether each external command succeeds. -/
def MockChroot.initializeChroot (m : MockChroot)
    (scrubOk initOk : Bool) : List MockEvent × Option PyExc :=
  if scrubOk then
    if initOk then
      ([.lockExclusive, .command (m.runCommandLine "--scrub all"),
        .command (m.runCommandLine "--init"), .lockRelease], none)
    else
      ([.lockExclusive, .command (m.runCommandLine "--scrub all"),
        .command (m.runCommandLine "--init")],
        some (.commandExecutionError (m.runCommandLine "--init")))
  else
    ([.lockExclusive, .command (m.runCommandLine "--scrub all")],
      some (.commandExecutionError (m.runCommandLine "--scrub all")))

/-! ## Lemmas about reference resolution -/

theorem tryRefNames_skip (resolve : String → Option Commit)
    (xs : List String) (lastTried c : String) (cs : List String)
    (k : Commit) (hxs : ∀ x ∈ xs, resolve x = none)
    (hc : resolve c = some k) :
    tryRefNames resolve lastTried (xs ++ c :: cs) = .ok k := by
  induction xs generalizing lastTried with
  | nil => simp [tryRefNames, hc]
  | cons x rest ih =>
    have hx : resolve x = none := hxs x (by simp)
    rw [List.cons_append]
    simp only [tryRefNames, hx]
    exact ih x (fun y hy => hxs y (List.mem_cons_of_mem x hy))

theorem tryRefNames_all_none (resolve : String → Option Commit)
    (xs : List String) (lastTried b : String)
    (hxs : ∀ x ∈ xs, resolve x = none) (hb : resolve b = none) :
    tryRefNames resolve lastTried (xs ++ [b]) =
      .error (.repositoryError (refNotFoundMsg b)) := by
  induction xs generalizing lastTried with
  | nil => simp [tryRefNames, hb]
  | cons x rest ih =>
    have hx : resolve x = none := hxs x (by simp)
    rw [List.cons_append]
    simp only [tryRefNames, hx]
    exact ih x (fun y hy => hxs y (List.mem_cons_of_mem x hy))

theorem get_reference_not_found (resolve : String → Option Commit)
    (remotes : List Remote) (refName : String)
    (hqual : ∀ r ∈ remotes, resolve (osPathJoin r.name refName) = none)
    (hbare : resolve refName = none) :
    GitRepository.get_reference resolve remotes refName =
      .error (.repositoryError (refNotFoundMsg refName)) := by
  unfold GitRepository.get_reference refsNames
  refine tryRefNames_all_none resolve _ refName refName ?_ hbare
  intro x hx
  obtain ⟨r, hr, rfl⟩ := List.mem_map.mp hx
  exact hqual r hr

/-! ## C1, C2, C9: checkout and reference precedence -/

/-- C1: reference resolution precedence is fixed.  First conjunct:
when every remote-qualified candidate fails, the bare name is tried
and wins.  Second conjunct: the first remote (in enumeration order)
whose qualified name resolves wins, regardless of everything after it
— in particular regardless of the bare name.  Third conjunct: with
`origin` as the remote, a name resolving both as `origin/<name>` and
as bare `<name>` to different commits makes `checkout` reset head,
index and working tree to the remote-qualified commit. -/
theorem reference_resolution_precedence
    (resolve : String → Option Commit) (remotes : List Remote)
    (refName : String) :
    ((∀ r ∈ remotes, resolve (osPathJoin r.name refName) = none) →
      ∀ c : Commit, resolve refName = some c →
        GitRepository.get_reference resolve remotes refName = .ok c)
    ∧
    (∀ (pre post : List Remote) (r : Remote) (c : Commit),
      remotes = pre ++ r :: post →
      (∀ q ∈ pre, resolve (osPathJoin q.name refName) = none) →
      resolve (osPathJoin r.name refName) = some c →
      GitRepository.get_reference resolve remotes refName = .ok c)
    ∧
    (∀ (env : GitEnv) (s : GitState) (u : String) (c1 c2 : Commit)
      (refspecs : Option (List String)),
      env.resolve = resolve →
      s.remotes = [{ name := MAIN_REMOTE_NAME, url := u }] →
      env.fetch refspecs = true → env.resetOk = true →
      resolve (osPathJoin MAIN_REMOTE_NAME refName) = some c1 →
      resolve refName = some c2 → c1 ≠ c2 →
      GitRepository.checkout env s refName refspecs =
        .ok (GitRepository.update_submodules
          { s with headRef := c1, index := c1, workingTree := c1 })) := by
  refine ⟨?_, ?_, ?_⟩
  · intro hqual c hc
    unfold GitRepository.get_reference refsNames
    refine tryRefNames_skip resolve _ refName refName [] c ?_ hc
    intro x hx
    obtain ⟨r, hr, rfl⟩ := List.mem_map.mp hx
    exact hqual r hr
  · intro pre post r c hsplit hpre hr
    subst hsplit
    unfold GitRepository.get_reference refsNames
    rw [List.map_append, List.map_cons, List.append_assoc,
      List.cons_append]
    refine tryRefNames_skip resolve _ refName _ _ c ?_ hr
    intro x hx
    obtain ⟨q, hq, rfl⟩ := List.mem_map.mp hx
    exact hpre q hq
  · intro env s u c1 c2 refspecs hres hrem hfetch hreset hc1 _ _
    have hget : GitRepository.get_reference env.resolve s.remotes refName
        = .ok c1 := by
      rw [hres, hrem]
      unfold GitRepository.get_reference refsNames
      simp [tryRefNames, hc1]
    unfold GitRepository.checkout
    rw [hrem]
    simp only [List.any_cons, List.any_nil, Bool.or_false, beq_self_eq_true,
      if_true]
    rw [hfetch, ← hrem, hget]
    simp [hreset, hrem]

/-- C2: `checkout` of an unresolvable reference raises
`RepositoryError` whose message names the reference, and the state —
head, index and working tree — is exactly what it was before the call
(the resolution error is raised before `head.reference` is re-pointed
and before the hard reset). -/
theorem checkout_unresolvable_reference
    (env : GitEnv) (s : GitState) (refName : String)
    (refspecs : Option (List String))
    (hremote : s.remotes.any (fun r => r.name == MAIN_REMOTE_NAME) = true)
    (hfetch : env.fetch refspecs = true)
    (hqual : ∀ r ∈ s.remotes,
      env.resolve (osPathJoin r.name refName) = none)
    (hbare : env.resolve refName = none) :
    GitRepository.checkout env s refName refspecs =
      .error (.repositoryError (refNotFoundMsg refName), s)
    ∧ refNotFoundMsg refName =
        "Reference '" ++ refName ++ "' not found in repository" := by
  refine ⟨?_, rfl⟩
  unfold GitRepository.checkout
  rw [hremote, if_pos rfl, hfetch, if_pos rfl,
    get_reference_not_found env.resolve s.remotes refName hqual hbare]

/-- A concrete working copy freshly pointed at `origin`. -/
def stateOrigin : GitState :=
  { repoPath := "/work/example"
    headRef := "c0"
    index := "c0"
    workingTree := "c0"
    remotes := [{ name := "origin", url := "https://host/example.git" }]
    submodules := [] }

/-- An environment in which the fetch succeeds but nothing resolves. -/
def envNoRefs : GitEnv :=
  { fetch := fun _ => true, resolve := fun _ => none, resetOk := true }

theorem checkout_unresolvable_reference_witness :
    GitRepository.checkout envNoRefs stateOrigin "release-1.0" none =
      .error (.repositoryError (refNotFoundMsg "release-1.0"), stateOrigin)
    ∧ refNotFoundMsg "release-1.0" =
        "Reference '" ++ "release-1.0" ++ "' not found in repository" :=
  checkout_unresolvable_reference envNoRefs stateOrigin "release-1.0" none
    rfl rfl (fun _ _ => rfl) rfl

/-- C9: when the reference resolves but the hard reset raises,
`checkout` re-raises `RepositoryError` after `self.head.reference` has
already been re-pointed: the escaping state has `headRef` at the new
commit while index and working tree still hold the prior commits. -/
theorem checkout_reset_failure_moves_head
    (env : GitEnv) (s : GitState) (refName : String)
    (refspecs : Option (List String)) (c : Commit)
    (hremote : s.remotes.any (fun r => r.name == MAIN_REMOTE_NAME) = true)
    (hfetch : env.fetch refspecs = true)
    (href : GitRepository.get_reference env.resolve s.remotes refName
      = .ok c)
    (hreset : env.resetOk = false) :
    GitRepository.checkout env s refName refspecs =
      .error (.repositoryError (couldNotFindRefMsg refName s.name),
        { s with headRef := c })
    ∧ ({ s with headRef := c } : GitState).index = s.index
    ∧ ({ s with headRef := c } : GitState).workingTree = s.workingTree
    ∧ ({ s with headRef := c } : GitState).headRef = c := by
  refine ⟨?_, rfl, rfl, rfl⟩
  unfold GitRepository.checkout
  rw [hremote, if_pos rfl, hfetch, if_pos rfl, href, hreset]
  simp

/-- An environment in which `origin/release-1.0` resolves but the hard
reset fails. -/
def envResetFails : GitEnv :=
  { fetch := fun _ => true
    resolve := fun n => if n = "origin/release-1.0" then some "c1" else none
    resetOk := false }

theorem checkout_reset_failure_moves_head_witness :
    GitRepository.checkout envResetFails stateOrigin "release-1.0" none =
      .error (.repositoryError
          (couldNotFindRefMsg "release-1.0" stateOrigin.name),
        { stateOrigin with headRef := "c1" })
    ∧ ({ stateOrigin with headRef := "c1" } : GitState).index
        = stateOrigin.index
    ∧ ({ stateOrigin with headRef := "c1" } : GitState).workingTree
        = stateOrigin.workingTree
    ∧ ({ stateOrigin with headRef := "c1" } : GitState).headRef = "c1" :=
  checkout_reset_failure_moves_head envResetFails stateOrigin
    "release-1.0" none "c1" rfl rfl (by rfl) rfl

/-- A resolution map on which both the remote-qualified and the bare
name resolve, to different commits. -/
def resolveBoth : String → Option Commit := fun n =>
  if n = "origin/release-1.0" then some "cRemote"
  else if n = "release-1.0" then some "cLocal" else none

theorem reference_resolution_precedence_witness :
    GitRepository.checkout
      { fetch := fun _ => true, resolve := resolveBoth, resetOk := true }
      stateOrigin "release-1.0" none =
      .ok (GitRepository.update_submodules
        { stateOrigin with
          headRef := "cRemote", index := "cRemote",
          workingTree := "cRemote" }) :=
  (reference_resolution_precedence resolveBoth
      [{ name := "origin", url := "https://host/example.git" }]
      "release-1.0").2.2
    { fetch := fun _ => true, resolve := resolveBoth, resetOk := true }
    stateOrigin "https://host/example.git" "cRemote" "cLocal" none
    rfl rfl rfl rfl (by rfl) (by rfl) (by decide)

/-- C4, as stated, is false on the code: a fetch failure during
`checkout` is logged and re-raised *unchanged* as the underlying
`git.exc.GitCommandError` (`except git.exc.GitCommandError: ...
raise`), which is none of the taxonomy errors and in particular not
`RepositoryError`. -/
theorem fetch_failure_counterexample :
    GitRepository.checkout
      { fetch := fun _ => false, resolve := fun _ => none, resetOk := true }
      stateOrigin "master" none =
      .error (.gitCommandError ("git fetch " ++ MAIN_REMOTE_NAME),
        stateOrigin)
    ∧ PyExc.isRepositoryError
        (.gitCommandError ("git fetch " ++ MAIN_REMOTE_NAME)) = false
    ∧ PyExc.isTaxonomyError
        (.gitCommandError ("git fetch " ++ MAIN_REMOTE_NAME)) = false :=
  ⟨rfl, rfl, rfl⟩

/-- C4 amended: failures of the underlying tooling other than the
fetch are re-raised as taxonomy errors (here: a clone failure and a
hard-reset failure both become `RepositoryError`), but a fetch failure
during `checkout` is re-raised unchanged as the underlying
`GitCommandError`, which is not a taxonomy error. -/
theorem failure_propagation_boundaries
    (env : GitEnv) (s : GitState) (refName : String)
    (refspecs : Option (List String))
    (hremote : s.remotes.any (fun r => r.name == MAIN_REMOTE_NAME) = true)
    (hfetch : env.fetch refspecs = false) :
    GitRepository.checkout env s refName refspecs =
      .error (.gitCommandError ("git fetch " ++ MAIN_REMOTE_NAME), s)
    ∧ PyExc.isTaxonomyError
        (.gitCommandError ("git fetch " ++ MAIN_REMOTE_NAME)) = false
    ∧ (∀ (fenv : FactoryEnv) (url p : String), fenv.cloneOk = false →
        GitRepository.clone_from fenv url p =
          .error (.repositoryError "Failed to clone repository")
        ∧ PyExc.isRepositoryError
            (.repositoryError "Failed to clone repository") = true)
    ∧ (∀ (env2 : GitEnv) (s2 : GitState) (rn : String)
        (rs : Option (List String)) (c : Commit),
        s2.remotes.any (fun r => r.name == MAIN_REMOTE_NAME) = true →
        env2.fetch rs = true →
        GitRepository.get_reference env2.resolve s2.remotes rn = .ok c →
        env2.resetOk = false →
        GitRepository.checkout env2 s2 rn rs =
          .error (.repositoryError (couldNotFindRefMsg rn s2.name),
            { s2 with headRef := c })) := by
  refine ⟨?_, rfl, ?_, ?_⟩
  · unfold GitRepository.checkout
    rw [hremote, if_pos rfl, hfetch]
    simp
  · intro fenv url p hclone
    refine ⟨?_, rfl⟩
    unfold GitRepository.clone_from
    rw [hclone]
    simp
  · intro env2 s2 rn rs c hremote2 hfetch2 href2 hreset2
    unfold GitRepository.checkout
    rw [hremote2, if_pos rfl, hfetch2, if_pos rfl, href2, hreset2]
    simp

theorem failure_propagation_boundaries_witness :
    GitRepository.checkout
      { fetch := fun _ => false, resolve := fun _ => none, resetOk := true }
      stateOrigin "release-1.0" none =
      .error (.gitCommandError ("git fetch " ++ MAIN_REMOTE_NAME),
        stateOrigin)
    ∧ PyExc.isTaxonomyError
        (.gitCommandError ("git fetch " ++ MAIN_REMOTE_NAME)) = false
    ∧ (∀ (fenv : FactoryEnv) (url p : String), fenv.cloneOk = false →
        GitRepository.clone_from fenv url p =
          .error (.repositoryError "Failed to clone repository")
        ∧ PyExc.isRepositoryError
            (.repositoryError "Failed to clone repository") = true)
    ∧ (∀ (env2 : GitEnv) (s2 : GitState) (rn : String)
        (rs : Option (List String)) (c : Commit),
        s2.remotes.any (fun r => r.name == MAIN_REMOTE_NAME) = true →
        env2.fetch rs = true →
        GitRepository.get_reference env2.resolve s2.remotes rn = .ok c →
        env2.resetOk = false →
        GitRepository.checkout env2 s2 rn rs =
          .error (.repositoryError (couldNotFindRefMsg rn s2.name),
            { s2 with headRef := c })) :=
  failure_propagation_boundaries
    { fetch := fun _ => false, resolve := fun _ => none, resetOk := true }
    stateOrigin "release-1.0" none rfl rfl

/-! ## Lemmas about force_create_remote -/

theorem deleteRemote_find?_none (remotes : List Remote) (name : String) :
    (deleteRemote remotes name).find? (fun r => r.name == name) = none := by
  rw [List.find?_eq_none]
  intro x hx
  have := (List.mem_filter.mp hx).2
  simp only [Bool.not_eq_eq_eq_not, Bool.not_true] at this
  simp [this]

theorem deleteRemote_any_false (remotes : List Remote) (name : String) :
    (deleteRemote remotes name).any (fun r => r.name == name) = false := by
  rw [List.any_eq_false]
  intro x hx
  have := (List.mem_filter.mp hx).2
  simp only [Bool.not_eq_eq_eq_not, Bool.not_true] at this
  simp [this]

/-- The three-way normal form of `force_create_remote`: no remote with
the name (append), same URL (no-op), different URL (delete all remotes
with the name, then append). -/
theorem force_create_remote_eq (remotes : List Remote) (name url : String) :
    GitRepository.force_create_remote remotes name url =
      match remotes.find? (fun r => r.name == name) with
      | none => remotes ++ [{ name := name, url := url }]
      | some previous =>
        if previous.url = url then remotes
        else deleteRemote remotes name ++ [{ name := name, url := url }] := by
  unfold GitRepository.force_create_remote
  cases hf : remotes.find? (fun r => r.name == name) with
  | none =>
    have hany : remotes.any (fun r => r.name == name) = false := by
      rw [List.any_eq_false]
      exact List.find?_eq_none.mp hf
    simp [hany]
  | some previous =>
    have hany : remotes.any (fun r => r.name == name) = true := by
      rw [List.any_eq_true]
      have hp := List.find?_some hf
      exact ⟨previous, List.mem_of_find?_eq_some hf, hp⟩
    by_cases hurl : previous.url = url
    · simp [hany, hf, hurl]
    · simp only [hany, if_true, hf, hurl, ne_eq, not_false_iff, if_neg,
        if_false]
      simp [deleteRemote_any_false]

theorem pairwise_name_inj (l : List Remote)
    (h : l.Pairwise (fun a b => a.name ≠ b.name)) :
    ∀ r ∈ l, ∀ q ∈ l, r.name = q.name → r = q := by
  induction l with
  | nil => simp
  | cons x xs ih =>
    rw [List.pairwise_cons] at h
    intro r hr q hq hname
    cases List.mem_cons.mp hr with
    | inl hrx =>
      subst hrx
      cases List.mem_cons.mp hq with
      | inl hqx => exact hqx.symm
      | inr hq2 => exact absurd hname (h.1 q hq2)
    | inr hr2 =>
      cases List.mem_cons.mp hq with
      | inl hqx =>
        subst hqx
        exact absurd hname.symm (h.1 r hr2)
      | inr hq2 => exact ih h.2 r hr2 q hq2 hname

theorem countP_name_le_one (l : List Remote) (name : String)
    (h : l.Pairwise (fun a b => a.name ≠ b.name)) :
    l.countP (fun r => r.name == name) ≤ 1 := by
  induction l with
  | nil => simp
  | cons x xs ih =>
    rw [List.pairwise_cons] at h
    rw [List.countP_cons]
    by_cases hx : x.name = name
    · have hzero : xs.countP (fun r => r.name == name) = 0 := by
        rw [List.countP_eq_zero]
        intro a ha
        simp only [beq_iff_eq]
        intro han
        exact h.1 a ha (hx.trans han.symm)
      simp [hzero, hx]
    · have : (x.name == name) = false := by simp [hx]
      simp only [this, if_false]
      exact Nat.le_trans (Nat.le_of_eq (Nat.add_zero _)) (ih h.2)

/-- After `force_create_remote name url` on a list with pairwise
distinct remote names, exactly one remote named `name` remains. -/
theorem force_create_remote_count (remotes : List Remote)
    (name url : String)
    (h : remotes.Pairwise (fun a b => a.name ≠ b.name)) :
    (GitRepository.force_create_remote remotes name url).countP
      (fun r => r.name == name) = 1 := by
  rw [force_create_remote_eq]
  cases hf : remotes.find? (fun r => r.name == name) with
  | none =>
    have hzero : remotes.countP (fun r => r.name == name) = 0 := by
      rw [List.countP_eq_zero]
      exact List.find?_eq_none.mp hf
    simp [List.countP_append, hzero, List.countP_cons]
  | some previous =>
    by_cases hurl : previous.url = url
    · simp only [if_pos hurl]
      have hpos : 0 < remotes.countP (fun r => r.name == name) := by
        rw [List.countP_pos_iff]
        have hp := List.find?_some hf
        exact ⟨previous, List.mem_of_find?_eq_some hf, hp⟩
      have hle := countP_name_le_one remotes name h
      omega
    · simp only [if_neg hurl]
      have hzero : (deleteRemote remotes name).countP
          (fun r => r.name == name) = 0 := by
        rw [List.countP_eq_zero]
        intro a ha
        have := (List.mem_filter.mp ha).2
        simp only [Bool.not_eq_eq_eq_not, Bool.not_true] at this
        simp [this]
      simp [List.countP_append, hzero, List.countP_cons]

/-- After `force_create_remote name url` on a list with pairwise
distinct remote names, the remote named `name` carries `url`. -/
theorem force_create_remote_url (remotes : List Remote)
    (name url : String)
    (h : remotes.Pairwise (fun a b => a.name ≠ b.name)) :
    ∀ r ∈ GitRepository.force_create_remote remotes name url,
      r.name = name → r.url = url := by
  rw [force_create_remote_eq]
  cases hf : remotes.find? (fun r => r.name == name) with
  | none =>
    intro r hr hname
    rcases List.mem_append.mp hr with hr | hr
    · exact absurd (by simp [hname] : (r.name == name) = true)
        (List.find?_eq_none.mp hf r hr)
    · rw [List.mem_singleton.mp hr]
  | some previous =>
    by_cases hurl : previous.url = url
    · simp only [if_pos hurl]
      intro r hr hname
      have hprev : previous.name = name := by
        have := List.find?_some hf
        simpa using this
      have : r = previous :=
        pairwise_name_inj remotes h r hr previous
          (List.mem_of_find?_eq_some hf) (hname.trans hprev.symm)
      rw [this, hurl]
    · simp only [if_neg hurl]
      intro r hr hname
      rcases List.mem_append.mp hr with hr | hr
      · have := (List.mem_filter.mp hr).2
        simp only [Bool.not_eq_eq_eq_not, Bool.not_true] at this
        exact absurd (by simp [hname] : (r.name == name) = true)
          (by simp [this])
      · rw [List.mem_singleton.mp hr]

theorem force_create_remote_idem (remotes : List Remote)
    (name url : String) :
    GitRepository.force_create_remote
      (GitRepository.force_create_remote remotes name url) name url =
      GitRepository.force_create_remote remotes name url := by
  rw [force_create_remote_eq remotes name url]
  cases hf : remotes.find? (fun r => r.name == name) with
  | none =>
    rw [force_create_remote_eq]
    have hfind : (remotes ++ [({ name := name, url := url } : Remote)]).find?
        (fun r => r.name == name) = some { name := name, url := url } := by
      rw [List.find?_append, hf]
      simp
    rw [hfind]
    simp
  | some previous =>
    by_cases hurl : previous.url = url
    · simp only [if_pos hurl]
      rw [force_create_remote_eq, hf]
      simp [hurl]
    · simp only [if_neg hurl]
      rw [force_create_remote_eq]
      have hfind : (deleteRemote remotes name
          ++ [({ name := name, url := url } : Remote)]).find?
          (fun r => r.name == name) = some { name := name, url := url } := by
        rw [List.find?_append, deleteRemote_find?_none]
        simp
      rw [hfind]
      simp

/-! ## C6: force_create_remote is an idempotent upsert -/

/-- C6: `force_create_remote(name, url)` is an idempotent upsert.
Conjuncts, in order: a remote with the name but a different URL is
deleted and recreated with the new URL; one with the same URL makes
the call a no-op; an absent one is created; afterwards (names being
pairwise distinct, as git guarantees) exactly one remote with the name
exists; and a second call with identical arguments returns the remote
list literally unchanged — same count, same URLs. -/
theorem force_create_remote_upsert (remotes : List Remote)
    (name url : String) :
    (∀ previous,
      remotes.find? (fun r => r.name == name) = some previous →
      previous.url ≠ url →
      GitRepository.force_create_remote remotes name url =
        deleteRemote remotes name ++ [{ name := name, url := url }])
    ∧ (∀ previous,
      remotes.find? (fun r => r.name == name) = some previous →
      previous.url = url →
      GitRepository.force_create_remote remotes name url = remotes)
    ∧ (remotes.find? (fun r => r.name == name) = none →
      GitRepository.force_create_remote remotes name url =
        remotes ++ [{ name := name, url := url }])
    ∧ (remotes.Pairwise (fun a b => a.name ≠ b.name) →
      (GitRepository.force_create_remote remotes name url).countP
        (fun r => r.name == name) = 1)
    ∧ GitRepository.force_create_remote
        (GitRepository.force_create_remote remotes name url) name url =
      GitRepository.force_create_remote remotes name url := by
  refine ⟨?_, ?_, ?_,
    fun h => force_create_remote_count remotes name url h,
    force_create_remote_idem remotes name url⟩
  · intro previous hf hurl
    rw [force_create_remote_eq, hf]
    simp only [if_neg hurl]
  · intro previous hf hurl
    rw [force_create_remote_eq, hf]
    simp only [if_pos hurl]
  · intro hf
    rw [force_create_remote_eq, hf]

theorem force_create_remote_upsert_witness :
    GitRepository.force_create_remote
      [{ name := "origin", url := "a" }] "origin" "b" =
      deleteRemote [{ name := "origin", url := "a" }] "origin"
        ++ [{ name := "origin", url := "b" }]
    ∧ (GitRepository.force_create_remote
        [{ name := "origin", url := "a" }] "origin" "b").countP
        (fun r => r.name == "origin") = 1
    ∧ GitRepository.force_create_remote
        (GitRepository.force_create_remote
          [{ name := "origin", url := "a" }] "origin" "b") "origin" "b" =
      GitRepository.force_create_remote
        [{ name := "origin", url := "a" }] "origin" "b" := by
  obtain ⟨h1, _, _, h4, h5⟩ := force_create_remote_upsert
    [{ name := "origin", url := "a" }] "origin" "b"
  exact ⟨h1 { name := "origin", url := "a" } (by decide) (by decide),
    h4 (by simp), h5⟩

/-! ## C3, C5: the git repository factory -/

/-- C3: when the directory at the computed repository path exists but
is an invalid git directory, the factory call fails with the
format error carrying that path (the spec's `RepositoryFormatError`,
realized as the re-raised `git.exc.InvalidGitRepositoryError`), and
the filesystem is returned untouched — no auto-repair, no removal. -/
theorem factory_invalid_format (env : FactoryEnv) (fs : FileSys)
    (remoteRepoUrl parentDirPath : String) (name : Option String)
    (hinvalid : fs (osPathJoin parentDirPath
      (repoDirName remoteRepoUrl name)) = .invalidGit) :
    get_git_repository env fs remoteRepoUrl parentDirPath name =
      (.error (.invalidGitRepositoryError
        (osPathJoin parentDirPath (repoDirName remoteRepoUrl name))),
        fs) := by
  simp only [get_git_repository]
  rw [hinvalid]

/-- A filesystem with an invalid git directory everywhere. -/
def fsAllInvalid : FileSys := fun _ => .invalidGit

/-- The clone environment of the concrete factory runs. -/
def cloneEnv : FactoryEnv :=
  { httpProxy := none, cloneOk := true, cloneHead := "h1",
    cloneSubmodules := [] }

theorem factory_invalid_format_witness :
    get_git_repository cloneEnv fsAllInvalid "https://host/example.git"
      "/work" (some "example") =
      (.error (.invalidGitRepositoryError
        (osPathJoin "/work"
          (repoDirName "https://host/example.git" (some "example")))),
        fsAllInvalid) :=
  factory_invalid_format cloneEnv fsAllInvalid "https://host/example.git"
    "/work" (some "example") rfl

/-- C5: after any successful factory call — reopen-existing (with the
existing remotes' names pairwise distinct, as git guarantees) or
fresh-clone — exactly one remote named `origin` exists on the returned
working copy and its URL is the URL requested in that call. -/
theorem factory_main_remote_invariant (env : FactoryEnv) (fs : FileSys)
    (remoteRepoUrl parentDirPath : String) (name : Option String)
    (repo : GitState) (fs2 : FileSys)
    (hwf : ∀ s, fs (osPathJoin parentDirPath
        (repoDirName remoteRepoUrl name)) = .validGit s →
      s.remotes.Pairwise (fun a b => a.name ≠ b.name))
    (hok : get_git_repository env fs remoteRepoUrl parentDirPath name =
      (.ok repo, fs2)) :
    repo.remotes.countP (fun r => r.name == MAIN_REMOTE_NAME) = 1
    ∧ ∀ r ∈ repo.remotes, r.name = MAIN_REMOTE_NAME →
        r.url = remoteRepoUrl := by
  simp only [get_git_repository] at hok
  cases hd : fs (osPathJoin parentDirPath
      (repoDirName remoteRepoUrl name)) with
  | invalidGit =>
    rw [hd] at hok
    simp at hok
  | missing =>
    rw [hd] at hok
    simp only [GitRepository.clone_from] at hok
    by_cases hc : env.cloneOk
    · rw [if_pos hc] at hok
      simp only [Prod.mk.injEq, Except.ok.injEq] at hok
      obtain ⟨hrepo, -⟩ := hok
      subst hrepo
      constructor
      · simp [List.countP_cons]
      · intro r hr hname
        rw [List.mem_singleton.mp hr]
    · rw [if_neg hc] at hok
      simp at hok
  | validGit s =>
    rw [hd] at hok
    simp only [Prod.mk.injEq, Except.ok.injEq] at hok
    obtain ⟨hrepo, -⟩ := hok
    subst hrepo
    constructor
    · exact force_create_remote_count s.remotes MAIN_REMOTE_NAME
        remoteRepoUrl (hwf s hd)
    · exact force_create_remote_url s.remotes MAIN_REMOTE_NAME
        remoteRepoUrl (hwf s hd)

/-- A filesystem with nothing on it. -/
def fsAllMissing : FileSys := fun _ => .missing

theorem factory_main_remote_invariant_witness :
    ∃ (repo : GitState) (fs2 : FileSys),
      get_git_repository cloneEnv fsAllMissing "https://host/example.git"
        "/work" (some "example") = (.ok repo, fs2)
      ∧ repo.remotes.countP (fun r => r.name == MAIN_REMOTE_NAME) = 1
      ∧ ∀ r ∈ repo.remotes, r.name = MAIN_REMOTE_NAME →
          r.url = "https://host/example.git" := by
  refine ⟨_, _, rfl, ?_⟩
  exact factory_main_remote_invariant cloneEnv fsAllMissing
    "https://host/example.git" "/work" (some "example") _ _
    (fun s hs => nomatch hs) rfl

/-! ## C7, C10: push result inspection -/

/-- C7: when the transport push returns without throwing,
`push_head_commits` raises `PushError` — whose message names the
remote reference — exactly when the inspected entry's status flags
contain the error bit; without the bit no `PushError` is raised and
the call returns normally. -/
theorem push_error_flag (push : String → List PushInfo)
    (remotes : List Remote) (remoteRepoUrl remoteRepoBranch : String)
    (pushInfo : PushInfo) (rest : List PushInfo)
    (hres : push ("HEAD:refs/heads/" ++ remoteRepoBranch)
      = pushInfo :: rest) :
    (Nat.land PushInfo.ERROR pushInfo.flags ≠ 0 →
      GitRepository.push_head_commits push remotes remoteRepoUrl
          remoteRepoBranch =
        .error (.pushError (pushErrorMsg pushInfo.remoteRefName))
      ∧ pushErrorMsg pushInfo.remoteRefName =
          "Error pushing to remote reference " ++ pushInfo.remoteRefName)
    ∧ (Nat.land PushInfo.ERROR pushInfo.flags = 0 →
      GitRepository.push_head_commits push remotes remoteRepoUrl
          remoteRepoBranch =
        .ok (GitRepository.force_create_remote remotes REPO_REMOTE_NAME
          remoteRepoUrl)) := by
  constructor
  · intro h
    refine ⟨?_, rfl⟩
    simp only [GitRepository.push_head_commits]
    rw [hres]
    simp [h]
  · intro h
    simp only [GitRepository.push_head_commits]
    rw [hres]
    simp [h]

/-- A transport whose single result entry carries the error bit. -/
def pushOneError : String → List PushInfo := fun _ =>
  [{ flags := 1024, remoteRefName := "refs/heads/master", summary := "err" }]

theorem push_error_flag_witness :
    GitRepository.push_head_commits pushOneError [] "u" "master" =
      .error (.pushError (pushErrorMsg "refs/heads/master"))
    ∧ pushErrorMsg "refs/heads/master" =
        "Error pushing to remote reference " ++ "refs/heads/master" :=
  (push_error_flag pushOneError [] "u" "master"
    { flags := 1024, remoteRefName := "refs/heads/master", summary := "err" }
    [] rfl).1 (by decide)

/-- C10: `push_head_commits` decides success or `PushError` from entry
`[0]` of the push result alone: an empty result list makes the call
fail with Python's `IndexError` (not `PushError`), and when the first
entry carries no error bit the call succeeds whatever flags the later
entries hold. -/
theorem push_first_entry_only (push : String → List PushInfo)
    (remotes : List Remote) (remoteRepoUrl remoteRepoBranch : String) :
    (push ("HEAD:refs/heads/" ++ remoteRepoBranch) = [] →
      GitRepository.push_head_commits push remotes remoteRepoUrl
          remoteRepoBranch = .error .indexError
      ∧ PyExc.isPushError .indexError = false)
    ∧ (∀ (pushInfo : PushInfo) (rest : List PushInfo),
      push ("HEAD:refs/heads/" ++ remoteRepoBranch) = pushInfo :: rest →
      Nat.land PushInfo.ERROR pushInfo.flags = 0 →
      GitRepository.push_head_commits push remotes remoteRepoUrl
          remoteRepoBranch =
        .ok (GitRepository.force_create_remote remotes REPO_REMOTE_NAME
          remoteRepoUrl)) := by
  constructor
  · intro hres
    simp only [GitRepository.push_head_commits]
    rw [hres]
    exact ⟨rfl, rfl⟩
  · intro pushInfo rest hres h
    simp only [GitRepository.push_head_commits]
    rw [hres]
    simp [h]

/-- A transport returning no entry at all. -/
def pushEmpty : String → List PushInfo := fun _ => []

/-- A transport whose first entry is clean but whose second entry
carries the error bit. -/
def pushLaterError : String → List PushInfo := fun _ =>
  [{ flags := 256, remoteRefName := "refs/heads/master", summary := "ok" },
    { flags := 1024, remoteRefName := "refs/heads/master", summary := "err" }]

theorem push_first_entry_only_witness :
    (GitRepository.push_head_commits pushEmpty [] "u" "master" =
        .error .indexError
      ∧ PyExc.isPushError .indexError = false)
    ∧ GitRepository.push_head_commits pushLaterError [] "u" "master" =
        .ok (GitRepository.force_create_remote [] REPO_REMOTE_NAME "u") :=
  ⟨(push_first_entry_only pushEmpty [] "u" "master").1 rfl,
    (push_first_entry_only pushLaterError [] "u" "master").2
      { flags := 256, remoteRefName := "refs/heads/master", summary := "ok" }
      [{ flags := 1024, remoteRefName := "refs/heads/master", summary := "err" }]
      rfl (by decide)⟩

/-! ## C8: the chroot initializer's lock -/

/-- A concrete Mock object. -/
def mockExample : MockChroot :=
  { binary_file := "/usr/bin/mock", config_file := "builds.cfg",
    extra_args := "", unique_extension := "w1" }

/-- C8, evaluated at the failing input: on the success path the lock
is taken first and released last around the two commands; but when
either external command fails, execution stops at the raise and the
event trace contains no release — the unlock statement follows the
commands with no try/finally, so it never executes on a failure path,
contradicting the claimed unconditional release. -/
theorem mock_lock_not_released_on_failure :
    (MockChroot.initializeChroot mockExample true true).1 =
      [.lockExclusive,
        .command (mockExample.runCommandLine "--scrub all"),
        .command (mockExample.runCommandLine "--init"),
        .lockRelease]
    ∧ (MockChroot.initializeChroot mockExample false true).1 =
      [.lockExclusive,
        .command (mockExample.runCommandLine "--scrub all")]
    ∧ (MockChroot.initializeChroot mockExample false true).2 =
      some (.commandExecutionError
        (mockExample.runCommandLine "--scrub all"))
    ∧ MockEvent.lockRelease ∉
        (MockChroot.initializeChroot mockExample false true).1
    ∧ (MockChroot.initializeChroot mockExample true false).1 =
      [.lockExclusive,
        .command (mockExample.runCommandLine "--scrub all"),
        .command (mockExample.runCommandLine "--init")]
    ∧ MockEvent.lockRelease ∉
        (MockChroot.initializeChroot mockExample true false).1 := by
  refine ⟨rfl, rfl, rfl, ?_, rfl, ?_⟩ <;> decide
